/-
Verification of the frame-pipelining and dynamic-simulation core of the
DirectX-Castle renderer.

The definitions below are a shallow embedding of the two application files
(src/unnamed/part_000 alias TexColumnsApp.cpp, and
src/lab assignment 1/CastleCrusher.cpp, which agree on every function
modelled here).  Machine integers are modelled as Nat or Int; the float
quantities that the modelled control flow branches on (timer accumulators,
texture scroll offsets) are modelled as rationals.  Code of the repository
that is not under src (the Waves class, MathHelper, the d3dApp base class)
is modelled from the specification where needed; each such definition says
so in its doc comment.
-/
import Mathlib

set_option autoImplicit false

/-- Embedding of the global constant, part_000 line 20: const int gNumFrameResources = 3. -/
abbrev gNumFrameResources : Nat := 3

/-- Embedding of the frame-ring state of ShapesApp: the cursor
mCurrFrameResourceIndex (part_000 line 115, initialized to 0), the per-slot
Fence value of each FrameResource (0 meaning never submitted), and the
global fence counter mCurrentFence of the d3dApp base class. -/
structure FrameState where
  mCurrFrameResourceIndex : Fin gNumFrameResources
  fences : Fin gNumFrameResources → Nat
  mCurrentFence : Nat

/-- Embedding of the cursor advance, part_000 line 255:
mCurrFrameResourceIndex = (mCurrFrameResourceIndex + 1) % gNumFrameResources. -/
def nextFrameIndex (i : Fin gNumFrameResources) : Fin gNumFrameResources :=
  ⟨(i.val + 1) % gNumFrameResources, Nat.mod_lt _ (by decide)⟩

/-- Embedding of the slot-selection step of ShapesApp::Update (part_000
lines 255-256): advance the ring cursor to the slot about to be reused. -/
def acquire (s : FrameState) : FrameState :=
  { s with mCurrFrameResourceIndex := nextFrameIndex s.mCurrFrameResourceIndex }

/-- Fence value stored on the slot the cursor currently points at
(mCurrFrameResource.Fence). -/
def slotFence (s : FrameState) : Nat :=
  s.fences s.mCurrFrameResourceIndex

/-- Embedding of the wait condition of ShapesApp::Update (part_000 line 260):
mCurrFrameResource.Fence != 0 and mFence.GetCompletedValue() less than
mCurrFrameResource.Fence, evaluated on the state after the cursor advance. -/
def needsWait (s : FrameState) (completed : Nat) : Bool :=
  slotFence s != 0 && decide (completed < slotFence s)

/-- Embedding of the fence stamping in ShapesApp::Draw (part_000 lines
344-349): mCurrFrameResource.Fence = ++mCurrentFence, then
mCommandQueue.Signal(mFence, mCurrentFence). -/
def draw (s : FrameState) : FrameState :=
  { s with
    mCurrentFence := s.mCurrentFence + 1
    fences := Function.update s.fences s.mCurrFrameResourceIndex (s.mCurrentFence + 1) }

/-- One full CPU frame: the Update cursor advance followed by the Draw
submission and fence stamp. -/
def frameStep (s : FrameState) : FrameState :=
  draw (acquire s)

/-- Modelled from the spec: the initial value of the fence counter
mCurrentFence lives in d3dApp.h, which is not under src; the spec fixes a
marker of 0 to mean never submitted, so the counter starts at 0 and the
first stamped marker is 1.  Cursor starts at 0 (part_000 line 115) and all
slot fences start at 0 (FrameResource construction). -/
def initFrameState : FrameState :=
  { mCurrFrameResourceIndex := 0, fences := fun _ => 0, mCurrentFence := 0 }

/-- State after k cold-start frames (no GPU retirement observed). -/
def coldStart (k : Nat) : FrameState :=
  frameStep^[k] initFrameState

/-- Interaction alphabet of the CPU frame loop with the asynchronous GPU:
a retire step is the external fence reaching a new completed value (observed
through mFence.GetCompletedValue), a frame step is one Update cursor advance
plus the Draw submission. -/
inductive GpuOp where
  | retire (completed : Nat)
  | frame
deriving DecidableEq

/-- Configuration of the tick/submit/retire state machine: the embedded
ShapesApp frame state, the last observed completed fence value, and two
pieces of history instrumentation that no program variable stores (which
slots have ever been stamped, and the list of stamped markers in order). -/
structure Machine where
  fs : FrameState
  completed : Nat
  submitted : Fin gNumFrameResources → Bool
  stamps : List Nat

/-- Transition function of the machine.  A frame step performs the cursor
advance of Update followed by the fence stamp of Draw, recording the stamp
in the instrumentation; a retire step only moves the observed completed
value. -/
def stepMachine (m : Machine) : GpuOp → Machine
  | .retire c => { m with completed := c }
  | .frame =>
    let a := acquire m.fs
    { fs := draw a
      completed := m.completed
      submitted := Function.update m.submitted a.mCurrFrameResourceIndex true
      stamps := m.stamps ++ [a.mCurrentFence + 1] }

/-- Validity of a step: the completed value is nondecreasing and never
exceeds the last signalled fence (the GPU only signals stamped values), and
a frame step is taken only once the wait condition of Update is false
(the blocking wait in part_000 lines 260-266 has exited). -/
def validOp (m : Machine) : GpuOp → Bool
  | .retire c => decide (m.completed ≤ c) && decide (c ≤ m.fs.mCurrentFence)
  | .frame => !needsWait (acquire m.fs) m.completed

/-- Run the machine over a list of operations. -/
def runMachine (m : Machine) : List GpuOp → Machine
  | [] => m
  | op :: ops => runMachine (stepMachine m op) ops

/-- A run is valid when every step is valid in the state where it is taken. -/
def validRun (m : Machine) : List GpuOp → Bool
  | [] => true
  | op :: ops => validOp m op && validRun (stepMachine m op) ops

/-- Initial machine configuration: cold frame state, nothing completed,
nothing submitted, no stamps. -/
def initMachine : Machine :=
  { fs := initFrameState, completed := 0, submitted := fun _ => false, stamps := [] }

/-- Number of frames in flight in a frame state given the retired counter:
slots whose stored marker is greater than the retired counter. -/
def inFlightF (s : FrameState) (completed : Nat) : Nat :=
  (Finset.univ.filter fun i : Fin gNumFrameResources => completed < s.fences i).card

/-- Frames in flight in a machine configuration. -/
def inFlight (m : Machine) : Nat :=
  inFlightF m.fs m.completed

/-- Per-tick sub-steps of the ShapesApp frame loop, named after the source
functions that perform them. -/
inductive TickEvent where
  | acquireSlot
  | animateMaterials
  | flushObjectConstants
  | flushMaterialConstants
  | writePassConstants
  | advanceHeightField
  | copyWavesVertexBuffer
  | recordAndSubmit
  | stampAndSignal
deriving DecidableEq, BEq

/-- Tick steps performed by ShapesApp::Update in source order (part_000
lines 249-273): the cursor advance and wait, then AnimateMaterials,
UpdateObjectCBs, UpdateMaterialCBs, UpdateMainPassCB, and UpdateWaves,
which first advances the wave simulation (part_000 line 696) and then
copies the vertex snapshot into the current slot (lines 699-713). -/
def updateEvents : List TickEvent :=
  [.acquireSlot, .animateMaterials, .flushObjectConstants, .flushMaterialConstants,
   .writePassConstants, .advanceHeightField, .copyWavesVertexBuffer]

/-- Tick steps performed by ShapesApp::Draw in source order (part_000 lines
275-350): record and submit the command list, then stamp and signal the new
fence value. -/
def drawEvents : List TickEvent :=
  [.recordAndSubmit, .stampAndSignal]

/-- Full per-tick step sequence: Update followed by Draw (D3DApp::Run calls
them in this order each frame). -/
def tickEvents : List TickEvent :=
  updateEvents ++ drawEvents

/-- Failure of the OS-level wait primitive: the HRESULT returned by
mFence.SetEventOnCompletion when it fails (part_000 line 263). -/
inductive SyncError where
  | waitFailed (hr : Int)
deriving DecidableEq

/-- Embedding of ShapesApp::Update as a fallible computation (part_000
lines 249-273).  ThrowIfFailed on SetEventOnCompletion throws out of the
tick on failure; the exception propagates out of Update, so none of the
remaining per-tick steps run.  The waitResult argument is the outcome of
the external SetEventOnCompletion call, consulted only when the wait
condition holds.  On success the function returns the advanced frame state
and the Update step sequence. -/
def updateTick (s : FrameState) (completed : Nat) (waitResult : Except SyncError Unit) :
    Except SyncError (FrameState × List TickEvent) :=
  let a := acquire s
  if needsWait a completed then
    match waitResult with
    | .error e => .error e
    | .ok _ => .ok (a, updateEvents)
  else .ok (a, updateEvents)

/-- Per-tick steps actually executed, given the outcome of Update: an
aborted tick executes none of them. -/
def eventsOf (r : Except SyncError (FrameState × List TickEvent)) : List TickEvent :=
  match r with
  | .error _ => []
  | .ok p => p.2

/-- A 4x4 matrix of rationals, modelling XMFLOAT4X4 values. -/
def Mat4 : Type :=
  Fin 4 → Fin 4 → ℚ

/-- Embedding of XMMatrixTranspose. -/
def XMMatrixTranspose (M : Mat4) : Mat4 :=
  fun i j => M j i

/-- Embedding of struct ObjectConstants (FrameResource.h): the per-object
constant record built in ShapesApp::UpdateObjectCBs from the transposed
World and TexTransform matrices (part_000 lines 552-554). -/
structure ObjectConstants where
  World : Mat4
  TexTransform : Mat4

/-- Embedding of the mutable fields of struct RenderItem that the
dirty-propagation protocol touches (part_000 lines 24-57): the World and
TexTransform matrices, the NumFramesDirty counter, a C++ int initialized
to gNumFrameResources (line 40), and the stable index ObjCBIndex into the
per-slot object constant buffer (line 43). -/
structure RenderItemState where
  World : Mat4
  TexTransform : Mat4
  NumFramesDirty : Int
  ObjCBIndex : Nat

/-- The constant record UpdateObjectCBs builds from an item (part_000
lines 552-554): the transposed World and TexTransform. -/
def objectConstantsOf (e : RenderItemState) : ObjectConstants :=
  { World := XMMatrixTranspose e.World
    TexTransform := XMMatrixTranspose e.TexTransform }

/-- Embedding of one iteration of the loop body of
ShapesApp::UpdateObjectCBs (part_000 lines 543-561): when NumFramesDirty
is positive, CopyData writes the transposed transforms into the current
constant buffer at ObjCBIndex and the counter is decremented; the item and
the updated buffer are returned. -/
def flushItem (cb : Nat → ObjectConstants) (e : RenderItemState) :
    (Nat → ObjectConstants) × RenderItemState :=
  if e.NumFramesDirty > 0 then
    (Function.update cb e.ObjCBIndex (objectConstantsOf e),
     { e with NumFramesDirty := e.NumFramesDirty - 1 })
  else (cb, e)

/-- Embedding of the full loop of ShapesApp::UpdateObjectCBs over
mAllRitems in list order (part_000 lines 543-561): later items write after
earlier ones into the same buffer, so two items sharing an ObjCBIndex
interfere, the later one winning. -/
def flushItems (cb : Nat → ObjectConstants) :
    List RenderItemState → (Nat → ObjectConstants) × List RenderItemState
  | [] => (cb, [])
  | e :: es =>
    let p := flushItem cb e
    let q := flushItems p.1 es
    (q.1, p.2 :: q.2)

/-- State of the render-item collection together with the app frame cursor
and each FrameResource object constant buffer, an array indexed by
ObjCBIndex (each of the gNumFrameResources slots holds an independent
copy). -/
structure SceneObjects where
  mAllRitems : List RenderItemState
  currFrameResourceIndex : Fin gNumFrameResources
  objectCB : Fin gNumFrameResources → Nat → ObjectConstants

/-- Embedding of ShapesApp::UpdateObjectCBs (part_000 lines 540-562): run
the flush loop over all items against the current slot constant buffer. -/
def updateObjectCBs (s : SceneObjects) : SceneObjects :=
  let p := flushItems (s.objectCB s.currFrameResourceIndex) s.mAllRitems
  { s with
    objectCB := Function.update s.objectCB s.currFrameResourceIndex p.1
    mAllRitems := p.2 }

/-- One tick of the object-constant path: the Update cursor advance
(part_000 line 255) followed by UpdateObjectCBs on the now-current slot
(no other per-tick step writes item transforms or dirty counters). -/
def objectTick (s : SceneObjects) : SceneObjects :=
  updateObjectCBs { s with currFrameResourceIndex := nextFrameIndex s.currFrameResourceIndex }

/-- Replace the element at a position of a list by a function of it;
out-of-range positions leave the list unchanged. -/
def updateAt {α : Type} : List α → Nat → (α → α) → List α
  | [], _, _ => []
  | x :: xs, 0, f => f x :: xs
  | x :: xs, k + 1, f => x :: updateAt xs k f

/-- Operations on the render-item collection between frames: a per-tick
flush, or an external mutation of one item (the protocol of part_000
lines 36-40: write new transforms and reset NumFramesDirty to
gNumFrameResources, leaving ObjCBIndex stable). -/
inductive ItemOp where
  | tick
  | mutate (k : Nat) (w t : Mat4)

/-- Apply one item operation. -/
def itemStep (s : SceneObjects) : ItemOp → SceneObjects
  | .tick => objectTick s
  | .mutate k w t =>
    { s with mAllRitems := updateAt s.mAllRitems k fun e =>
        { e with World := w, TexTransform := t, NumFramesDirty := (gNumFrameResources : Int) } }

/-- Run a list of item operations. -/
def itemRun (s : SceneObjects) : List ItemOp → SceneObjects
  | [] => s
  | op :: ops => itemRun (itemStep s op) ops

/-- Embedding of the mutable Material fields used by AnimateMaterials and
UpdateMaterialCBs: the MatTransform matrix, the NumFramesDirty counter
(same protocol as RenderItem), and the remaining constant surface
parameters carried as abstract rational stand-ins. -/
structure MaterialState where
  DiffuseAlbedo : ℚ
  FresnelR0 : ℚ
  Roughness : ℚ
  MatTransform : Mat4
  NumFramesDirty : Int

/-- Embedding of struct MaterialConstants as built by
ShapesApp::UpdateMaterialCBs (part_000 lines 576-580). -/
structure MaterialConstants where
  DiffuseAlbedo : ℚ
  FresnelR0 : ℚ
  Roughness : ℚ
  MatTransform : Mat4

/-- The constant record UpdateMaterialCBs builds from a material. -/
def materialConstantsOf (m : MaterialState) : MaterialConstants :=
  { DiffuseAlbedo := m.DiffuseAlbedo
    FresnelR0 := m.FresnelR0
    Roughness := m.Roughness
    MatTransform := XMMatrixTranspose m.MatTransform }

/-- State of the water material together with the frame cursor and the
per-FrameResource MaterialCB entry at its fixed index MatCBIndex. -/
structure MaterialCBState where
  water : MaterialState
  currFrameResourceIndex : Fin gNumFrameResources
  slots : Fin gNumFrameResources → MaterialConstants

/-- Embedding of ShapesApp::AnimateMaterials (part_000 lines 516-538):
scroll the water MatTransform entries (3,0) and (3,1) by 0.1 and 0.02
times the frame delta, wrap each at 1, and unconditionally reset
NumFramesDirty to gNumFrameResources. -/
def animateMaterialsWater (m : MaterialState) (dt : ℚ) : MaterialState :=
  let tu0 := m.MatTransform 3 0 + 1/10 * dt
  let tv0 := m.MatTransform 3 1 + 1/50 * dt
  let tu := if 1 ≤ tu0 then tu0 - 1 else tu0
  let tv := if 1 ≤ tv0 then tv0 - 1 else tv0
  { m with
    MatTransform := fun i j =>
      if i = 3 ∧ j = 0 then tu else if i = 3 ∧ j = 1 then tv else m.MatTransform i j
    NumFramesDirty := (gNumFrameResources : Int) }

/-- Embedding of the body of ShapesApp::UpdateMaterialCBs for the water
material (part_000 lines 564-588): when NumFramesDirty is positive, copy
the material constants (with transposed MatTransform) into the current
slot and decrement the counter. -/
def updateMaterialCBs (s : MaterialCBState) : MaterialCBState :=
  if s.water.NumFramesDirty > 0 then
    { s with
      slots := Function.update s.slots s.currFrameResourceIndex (materialConstantsOf s.water)
      water := { s.water with NumFramesDirty := s.water.NumFramesDirty - 1 } }
  else s

/-- One tick of the material path in Update order (part_000 lines 255,
268, 270): cursor advance, then AnimateMaterials, then UpdateMaterialCBs. -/
def waterTick (s : MaterialCBState) (dt : ℚ) : MaterialCBState :=
  let s1 := { s with currFrameResourceIndex := nextFrameIndex s.currFrameResourceIndex }
  let s2 := { s1 with water := animateMaterialsWater s1.water dt }
  updateMaterialCBs s2

/-- One entry of the mMaterials collection: the mutable material fields
together with the stable index MatCBIndex into the per-slot material
constant buffer. -/
structure MaterialEntry where
  mat : MaterialState
  MatCBIndex : Nat

/-- Embedding of one iteration of the loop body of
ShapesApp::UpdateMaterialCBs (part_000 lines 567-587): when NumFramesDirty
is positive, CopyData writes the material constants into the current
buffer at MatCBIndex and the counter is decremented. -/
def flushMat (cb : Nat → MaterialConstants) (e : MaterialEntry) :
    (Nat → MaterialConstants) × MaterialEntry :=
  if e.mat.NumFramesDirty > 0 then
    (Function.update cb e.MatCBIndex (materialConstantsOf e.mat),
     { e with mat := { e.mat with NumFramesDirty := e.mat.NumFramesDirty - 1 } })
  else (cb, e)

/-- Embedding of the full loop of ShapesApp::UpdateMaterialCBs over the
mMaterials collection in some fixed iteration order (part_000 lines
567-587). -/
def flushMats (cb : Nat → MaterialConstants) :
    List MaterialEntry → (Nat → MaterialConstants) × List MaterialEntry
  | [] => (cb, [])
  | e :: es =>
    let p := flushMat cb e
    let q := flushMats p.1 es
    (q.1, p.2 :: q.2)

/-- State of the material collection together with the app frame cursor
and each FrameResource material constant buffer, indexed by MatCBIndex. -/
structure SceneMaterials where
  mMaterials : List MaterialEntry
  currFrameResourceIndex : Fin gNumFrameResources
  materialCB : Fin gNumFrameResources → Nat → MaterialConstants

/-- Embedding of ShapesApp::UpdateMaterialCBs (part_000 lines 564-588):
run the flush loop over all materials against the current slot buffer. -/
def updateMaterialCBsAll (s : SceneMaterials) : SceneMaterials :=
  let p := flushMats (s.materialCB s.currFrameResourceIndex) s.mMaterials
  { s with
    materialCB := Function.update s.materialCB s.currFrameResourceIndex p.1
    mMaterials := p.2 }

/-- One tick of the material path in Update order (part_000 lines 255,
268, 270): cursor advance, then AnimateMaterials, which scrolls and
re-dirties exactly one entry of the collection (the water material, at
position waterPos), then UpdateMaterialCBs over all materials. -/
def materialTick (s : SceneMaterials) (waterPos : Nat) (dt : ℚ) : SceneMaterials :=
  let s1 := { s with currFrameResourceIndex := nextFrameIndex s.currFrameResourceIndex }
  let s2 := { s1 with mMaterials := updateAt s1.mMaterials waterPos fun e =>
                { e with mat := animateMaterialsWater e.mat dt } }
  updateMaterialCBsAll s2

/-- Operations on the material collection between frames: a per-tick
flush (with the animated entry position and frame delta), or an external
mutation of one material (the protocol of part_000 line 537 and the
Material dirty convention: write new constants and reset NumFramesDirty
to gNumFrameResources, leaving MatCBIndex stable). -/
inductive MatOp where
  | tick (waterPos : Nat) (dt : ℚ)
  | mutate (k : Nat) (d f r : ℚ) (mt : Mat4)

/-- Apply one material operation. -/
def matStep (s : SceneMaterials) : MatOp → SceneMaterials
  | .tick wp dt => materialTick s wp dt
  | .mutate k d f r mt =>
    { s with mMaterials := updateAt s.mMaterials k fun e =>
        { e with mat := { DiffuseAlbedo := d, FresnelR0 := f, Roughness := r,
                          MatTransform := mt, NumFramesDirty := (gNumFrameResources : Int) } } }

/-- Run a list of material operations. -/
def matRun (s : SceneMaterials) : List MatOp → SceneMaterials
  | [] => s
  | op :: ops => matRun (matStep s op) ops

/-- Constant matrix of ones, a concrete transform for counterexamples. -/
def matOnes : Mat4 := fun _ _ => 1

/-- Constant matrix of twos, a concrete transform for counterexamples. -/
def matTwos : Mat4 := fun _ _ => 2

/-- All-zero object constants, the initial buffer contents. -/
def zeroObjectConstants : ObjectConstants :=
  { World := fun _ _ => 0, TexTransform := fun _ _ => 0 }

/-- Concrete model of the treeSprites render item right after a mutation:
ObjCBIndex is hard-coded to 3 in BuildRenderItems (part_000 line 1637,
CastleCrusher.cpp line 1483), NumFramesDirty = gNumFrameResources. -/
def treeSpritesItemEx : RenderItemState :=
  { World := matOnes, TexTransform := matOnes,
    NumFramesDirty := (gNumFrameResources : Int), ObjCBIndex := 3 }

/-- Concrete model of the third wall render item, whose ObjCBIndex is also
3 (the running Index++ counter in BuildRenderItems reaches 3 at part_000
line 1677, CastleCrusher.cpp line 1523 because treeSprites did not consume
a counter value), still dirty from its creation. -/
def backWallItemEx : RenderItemState :=
  { World := matTwos, TexTransform := matTwos,
    NumFramesDirty := (gNumFrameResources : Int), ObjCBIndex := 3 }

/-- Concrete scene holding the two index-3 render items in their mAllRitems
order (treeSprites pushed before the third wall), with cold buffers. -/
def sharedIndexScene : SceneObjects :=
  { mAllRitems := [treeSpritesItemEx, backWallItemEx]
    currFrameResourceIndex := 0
    objectCB := fun _ _ => zeroObjectConstants }

/-- Concrete one-item scene with a unique index, for witnesses. -/
def singleItemScene : SceneObjects :=
  { mAllRitems := [treeSpritesItemEx]
    currFrameResourceIndex := 0
    objectCB := fun _ _ => zeroObjectConstants }

/-- All-zero material constants, the initial buffer contents. -/
def zeroMaterialConstants : MaterialConstants :=
  { DiffuseAlbedo := 0, FresnelR0 := 0, Roughness := 0, MatTransform := fun _ _ => 0 }

/-- Concrete material entry right after a mutation, for witnesses. -/
def matEntryEx : MaterialEntry :=
  { mat := { DiffuseAlbedo := 1, FresnelR0 := 0, Roughness := 0,
             MatTransform := matOnes, NumFramesDirty := (gNumFrameResources : Int) }
    MatCBIndex := 0 }

/-- Concrete one-material scene for witnesses. -/
def singleMatScene : SceneMaterials :=
  { mMaterials := [matEntryEx]
    currFrameResourceIndex := 0
    materialCB := fun _ _ => zeroMaterialConstants }

/-- Construction-time parameters of the height-field simulator. -/
structure Waves where
  rows : Nat
  cols : Nat
  spatialStep : ℚ
  timeStep : ℚ
  speed : ℚ
  damping : ℚ

/-- Modelled from the spec: Waves.h and Waves.cpp are not under src; the
spec (section 4.1) gives the constructor signature
Construct(rows, cols, spatialStep, timeStep, speed, damping), binding the
positional literals of the caller in that order. -/
def Waves.construct (rows cols : Nat) (spatialStep timeStep speed damping : ℚ) : Waves :=
  { rows := rows, cols := cols, spatialStep := spatialStep,
    timeStep := timeStep, speed := speed, damping := damping }

/-- Embedding of the single instantiation in ShapesApp::Initialize
(part_000 line 210 and CastleCrusher.cpp line 199):
make_unique of Waves with positional literals 128, 128, 1.0f, 0.03f,
4.0f, 0.2f. -/
def mWaves : Waves :=
  Waves.construct 128 128 1 (3/100) 4 (1/5)

/-- Modelled from the spec: accessor RowCount of the height field (the
row count fixed at construction), returned as a C++ int. -/
def Waves.RowCount (w : Waves) : Int :=
  (w.rows : Int)

/-- Modelled from the spec: accessor ColumnCount of the height field. -/
def Waves.ColumnCount (w : Waves) : Int :=
  (w.cols : Int)

namespace MathHelper

/-- Modelled from the spec: MathHelper.h is not under src; Rand(a, b)
returns an integer drawn uniformly from the closed interval from a to b,
modelled as a plus an offset seed reduced modulo the interval length. -/
def Rand (a b : Int) (seed : Nat) : Int :=
  a + (seed : Int) % (b - a + 1)

end MathHelper

/-- The cell targeted by the Disturb call issued in ShapesApp::UpdateWaves
(part_000 lines 687-692): row Rand(4, RowCount - 5) and column
Rand(4, ColumnCount - 5), for arbitrary random seeds. -/
def disturbTarget (seedI seedJ : Nat) : Int × Int :=
  (MathHelper.Rand 4 (mWaves.RowCount - 5) seedI,
   MathHelper.Rand 4 (mWaves.ColumnCount - 5) seedJ)

/-- The disturb-cadence state of ShapesApp::UpdateWaves: the function-static
accumulator t_base (part_000 line 682), threaded across calls, together
with a count of the Disturb calls issued so far. -/
structure WavesTimer where
  tBase : ℚ
  disturbCount : Nat

/-- Embedding of the cadence gate of ShapesApp::UpdateWaves (part_000 lines
682-693): when the total time minus t_base has reached a quarter second,
advance t_base by a quarter second and issue one Disturb. -/
def updateWavesTimer (w : WavesTimer) (totalTime : ℚ) : WavesTimer :=
  if 1/4 ≤ totalTime - w.tBase then
    { tBase := w.tBase + 1/4, disturbCount := w.disturbCount + 1 }
  else w

/-- Run the cadence gate over the total-time values of successive ticks. -/
def runWavesTimer (w : WavesTimer) : List ℚ → WavesTimer
  | [] => w
  | t :: ts => runWavesTimer (updateWavesTimer w t) ts

/-- C1: for the ring of size N = gNumFrameResources = 3 starting cold, the
first 3 slot acquisitions need no wait for any value of the retired
counter; the 4th acquisition waits exactly while the retired counter is
below the fence stamped on the slot being reclaimed, that fence is 1, and
1 is the least of all outstanding markers (the oldest). -/
theorem frameRing_backpressure_cold_start :
    (∀ c : Nat, needsWait (acquire (coldStart 0)) c = false) ∧
    (∀ c : Nat, needsWait (acquire (coldStart 1)) c = false) ∧
    (∀ c : Nat, needsWait (acquire (coldStart 2)) c = false) ∧
    (∀ c : Nat, (needsWait (acquire (coldStart 3)) c = true ↔ c < slotFence (acquire (coldStart 3)))) ∧
    slotFence (acquire (coldStart 3)) = 1 ∧
    (∀ i : Fin gNumFrameResources, 1 ≤ (coldStart 3).fences i) := by
  refine ⟨fun c => rfl, fun c => rfl, fun c => rfl, fun c => ?_, rfl, by decide⟩
  show (true && decide (c < 1)) = true ↔ c < 1
  simp

/-- C4 counterexample: in the per-tick step sequence of the source, the
object-constant flush comes strictly before the height-field time advance,
so the claimed order (height-field advance before the constant flushes)
is false. -/
theorem tick_order_counterexample :
    List.indexOf TickEvent.flushObjectConstants tickEvents
      < List.indexOf TickEvent.advanceHeightField tickEvents ∧
    ¬ List.indexOf TickEvent.advanceHeightField tickEvents
      < List.indexOf TickEvent.flushObjectConstants tickEvents := by
  decide

/-- C4 amended: the per-tick order the code actually executes is acquire,
material animation, object-constant flush, material-constant flush,
pass-constant write, height-field time advance, vertex snapshot copy,
command submission, fence stamp and signal; in particular the height-field
advance follows all three constant-buffer writes and immediately precedes
the snapshot copy. -/
theorem tick_order :
    List.indexOf TickEvent.acquireSlot tickEvents
      < List.indexOf TickEvent.animateMaterials tickEvents ∧
    List.indexOf TickEvent.animateMaterials tickEvents
      < List.indexOf TickEvent.flushObjectConstants tickEvents ∧
    List.indexOf TickEvent.flushObjectConstants tickEvents
      < List.indexOf TickEvent.flushMaterialConstants tickEvents ∧
    List.indexOf TickEvent.flushMaterialConstants tickEvents
      < List.indexOf TickEvent.writePassConstants tickEvents ∧
    List.indexOf TickEvent.writePassConstants tickEvents
      < List.indexOf TickEvent.advanceHeightField tickEvents ∧
    List.indexOf TickEvent.advanceHeightField tickEvents + 1
      = List.indexOf TickEvent.copyWavesVertexBuffer tickEvents ∧
    List.indexOf TickEvent.copyWavesVertexBuffer tickEvents
      < List.indexOf TickEvent.recordAndSubmit tickEvents ∧
    List.indexOf TickEvent.recordAndSubmit tickEvents
      < List.indexOf TickEvent.stampAndSignal tickEvents := by
  decide

/-- C5 counterexample: under the positional constructor signature the
instantiation binds a time step of 0.03 and a damping of 0.2, so the
claimed reading (time step 0.2, damping 0.03) is false. -/
theorem waves_ctor_binding_counterexample :
    mWaves.timeStep = 3/100 ∧ mWaves.damping = 1/5 ∧
    ¬ (mWaves.timeStep = 1/5 ∧ mWaves.damping = 3/100) := by
  refine ⟨rfl, rfl, ?_⟩
  rintro ⟨h, -⟩
  norm_num [mWaves, Waves.construct] at h

/-- C5 amended: the application instantiates the height field once at
startup with a 128 by 128 grid, spatial step 1.0, time step 0.03, wave
speed 4.0, and damping 0.2 (the positional reading of the literals
128, 128, 1.0, 0.03, 4.0, 0.2). -/
theorem waves_instantiation :
    mWaves.rows = 128 ∧ mWaves.cols = 128 ∧ mWaves.spatialStep = 1 ∧
    mWaves.timeStep = 3/100 ∧ mWaves.speed = 4 ∧ mWaves.damping = 1/5 :=
  ⟨rfl, rfl, rfl, rfl, rfl, rfl⟩

/-- C8: when the wait condition holds and the external wait primitive
fails, the tick aborts with that error and executes none of the remaining
per-tick steps. -/
theorem wait_failure_aborts_tick (s : FrameState) (c : Nat) (e : SyncError)
    (h : needsWait (acquire s) c = true) :
    updateTick s c (Except.error e) = Except.error e ∧
    eventsOf (updateTick s c (Except.error e)) = [] := by
  refine ⟨?_, ?_⟩ <;> simp [updateTick, h, eventsOf]

/-- Witness for C8 at the concrete blocked state after three cold-start
frames with nothing retired. -/
theorem wait_failure_aborts_tick_witness :
    needsWait (acquire (coldStart 3)) 0 = true ∧
    updateTick (coldStart 3) 0 (Except.error (SyncError.waitFailed 1))
      = Except.error (SyncError.waitFailed 1) :=
  ⟨by decide, (wait_failure_aborts_tick (coldStart 3) 0 (SyncError.waitFailed 1) (by decide)).1⟩

/-- C3 counterexample: the state reached by three valid cold-start frame
steps with nothing retired has all gNumFrameResources = 3 slots in flight,
exceeding the claimed bound of gNumFrameResources - 1. -/
theorem inflight_bound_counterexample :
    validRun initMachine [GpuOp.frame, GpuOp.frame, GpuOp.frame] = true ∧
    inFlight (runMachine initMachine [GpuOp.frame, GpuOp.frame, GpuOp.frame])
      = gNumFrameResources ∧
    ¬ inFlight (runMachine initMachine [GpuOp.frame, GpuOp.frame, GpuOp.frame])
        ≤ gNumFrameResources - 1 := by
  decide

/-- C3 amended: whenever the acquisition wait condition is false (the
moment the CPU takes possession of a slot), at most gNumFrameResources - 1
frames are in flight, because the acquired slot itself is retired or never
submitted; and at any time at most gNumFrameResources frames are in
flight. -/
theorem inflight_bound_at_acquire (s : FrameState) (c : Nat)
    (h : needsWait (acquire s) c = false) :
    inFlightF s c ≤ gNumFrameResources - 1 ∧ inFlightF s c ≤ gNumFrameResources := by
  have hidx : ¬ c < s.fences (nextFrameIndex s.mCurrFrameResourceIndex) := by
    simp only [needsWait, slotFence, acquire, Bool.and_eq_false_iff, bne_eq_false_iff_eq,
      decide_eq_false_iff_not] at h
    rcases h with h | h
    · rw [h]; omega
    · exact h
  constructor
  · have hsub : (Finset.univ.filter fun i : Fin gNumFrameResources => c < s.fences i)
        ⊆ Finset.univ.erase (nextFrameIndex s.mCurrFrameResourceIndex) := by
      refine Finset.subset_erase.mpr ⟨Finset.filter_subset _ _, ?_⟩
      simp [hidx]
    have hcard := Finset.card_le_card hsub
    rw [Finset.card_erase_of_mem (Finset.mem_univ _)] at hcard
    simpa [inFlightF] using hcard
  · have hcard := Finset.card_filter_le Finset.univ
      (fun i : Fin gNumFrameResources => c < s.fences i)
    simpa [inFlightF] using hcard

/-- Witness for C3 amended at the cold initial state. -/
theorem inflight_bound_at_acquire_witness :
    needsWait (acquire initFrameState) 0 = false ∧
    inFlightF initFrameState 0 ≤ gNumFrameResources - 1 :=
  ⟨by decide, (inflight_bound_at_acquire initFrameState 0 (by decide)).1⟩

/-- Helper: the result of updateMaterialCBs when the dirty counter is
positive. -/
theorem updateMaterialCBs_of_pos (s : MaterialCBState)
    (h : s.water.NumFramesDirty > 0) :
    updateMaterialCBs s =
      { s with
        slots := Function.update s.slots s.currFrameResourceIndex (materialConstantsOf s.water)
        water := { s.water with NumFramesDirty := s.water.NumFramesDirty - 1 } } := by
  simp [updateMaterialCBs, h]

/-- C9: on every tick the material animation step unconditionally resets
the water material dirty counter to gNumFrameResources before the flush
reads it, so the flush condition always sees the full counter, the water
constants are copied into the current frame slot on every tick, and the
counter leaves the tick at gNumFrameResources - 1, never 0 at the check
point. -/
theorem water_material_always_dirty (s : MaterialCBState) (dt : ℚ) :
    (animateMaterialsWater s.water dt).NumFramesDirty = (gNumFrameResources : Int) ∧
    0 < (animateMaterialsWater s.water dt).NumFramesDirty ∧
    (waterTick s dt).slots (nextFrameIndex s.currFrameResourceIndex)
      = materialConstantsOf (animateMaterialsWater s.water dt) ∧
    (waterTick s dt).water.NumFramesDirty = (gNumFrameResources : Int) - 1 := by
  have hd : (animateMaterialsWater s.water dt).NumFramesDirty = (gNumFrameResources : Int) := rfl
  have hpos : (animateMaterialsWater s.water dt).NumFramesDirty > 0 := by
    rw [hd]; norm_num
  refine ⟨hd, hpos, ?_, ?_⟩
  · show (updateMaterialCBs _).slots _ = _
    rw [updateMaterialCBs_of_pos _ hpos]
    exact Function.update_same _ _ _
  · show (updateMaterialCBs _).water.NumFramesDirty = _
    rw [updateMaterialCBs_of_pos _ hpos, hd]

/-- Helper: acquiring does not change the fence counter. -/
theorem acquire_mCurrentFence (s : FrameState) :
    (acquire s).mCurrentFence = s.mCurrentFence := rfl

/-- Helper: acquiring does not change the slot fences. -/
theorem acquire_fences (s : FrameState) :
    (acquire s).fences = s.fences := rfl

/-- Helper: drawing increments the fence counter. -/
theorem draw_mCurrentFence (s : FrameState) :
    (draw s).mCurrentFence = s.mCurrentFence + 1 := rfl

/-- Helper: drawing stamps the incremented counter on the current slot. -/
theorem draw_fences (s : FrameState) :
    (draw s).fences
      = Function.update s.fences s.mCurrFrameResourceIndex (s.mCurrentFence + 1) := rfl

/-- Helper: a run of the machine preserves the stamp and submission
invariant (stamps strictly increasing and bounded by the fence counter,
slot fence zero exactly when the slot was never submitted). -/
theorem runMachine_inv (ops : List GpuOp) :
    ∀ m : Machine,
      List.Pairwise (· < ·) m.stamps →
      (∀ x ∈ m.stamps, 0 < x ∧ x ≤ m.fs.mCurrentFence) →
      (∀ i, (m.fs.fences i = 0 ↔ m.submitted i = false)) →
      List.Pairwise (· < ·) (runMachine m ops).stamps ∧
      (∀ x ∈ (runMachine m ops).stamps, 0 < x ∧ x ≤ (runMachine m ops).fs.mCurrentFence) ∧
      (∀ i, ((runMachine m ops).fs.fences i = 0 ↔ (runMachine m ops).submitted i = false)) := by
  induction ops with
  | nil => intro m h1 h2 h3; exact ⟨h1, h2, h3⟩
  | cons op ops ih =>
    intro m h1 h2 h3
    cases op with
    | retire cv =>
      exact ih { m with completed := cv } h1 h2 h3
    | frame =>
      apply ih
      · simp only [stepMachine]
        rw [List.pairwise_append]
        refine ⟨h1, List.pairwise_singleton _ _, ?_⟩
        intro x hx y hy
        rw [List.mem_singleton] at hy
        subst hy
        have hb := (h2 x hx).2
        rw [acquire_mCurrentFence]
        omega
      · simp only [stepMachine]
        intro x hx
        rw [List.mem_append, List.mem_singleton] at hx
        rw [draw_mCurrentFence, acquire_mCurrentFence]
        rcases hx with hx | hx
        · have hb := h2 x hx
          exact ⟨hb.1, by omega⟩
        · subst hx
          rw [acquire_mCurrentFence]
          exact ⟨by omega, by omega⟩
      · intro i
        simp only [stepMachine]
        rw [draw_fences, acquire_fences, acquire_mCurrentFence]
        by_cases hi : i = (acquire m.fs).mCurrFrameResourceIndex
        · subst hi
          rw [Function.update_same, Function.update_same]
          simp
        · rw [Function.update_noteq hi, Function.update_noteq hi]
          exact h3 i

/-- C6: across any run of the tick/submit/retire machine from the initial
state, the sequence of markers stamped into frame slots is strictly
increasing and every stamped marker is positive, and a slot fence is 0
exactly when that slot has never been submitted. -/
theorem fence_markers_strictly_increasing (ops : List GpuOp) :
    List.Pairwise (· < ·) (runMachine initMachine ops).stamps ∧
    (∀ x ∈ (runMachine initMachine ops).stamps, 0 < x) ∧
    (∀ i : Fin gNumFrameResources,
      ((runMachine initMachine ops).fs.fences i = 0 ↔
        (runMachine initMachine ops).submitted i = false)) := by
  have h := runMachine_inv ops initMachine (by simp [initMachine])
    (by simp [initMachine]) (by simp [initMachine, initFrameState])
  exact ⟨h.1, fun x hx => (h.2.1 x hx).1, h.2.2⟩

/-- Helper: the cadence gate keeps its accumulator at a quarter of the
disturb count, and the count below four times any bound on the observed
total times. -/
theorem runWavesTimer_le (T : ℚ) :
    ∀ (times : List ℚ) (w : WavesTimer),
      (∀ t ∈ times, t ≤ T) →
      w.tBase = (w.disturbCount : ℚ) / 4 →
      (w.disturbCount : ℚ) ≤ 4 * T →
      ((runWavesTimer w times).disturbCount : ℚ) ≤ 4 * T := by
  intro times
  induction times with
  | nil => intro w _ _ hc; exact hc
  | cons t ts ih =>
    intro w hmem hb hc
    have ht : t ≤ T := hmem t (by simp)
    show ((runWavesTimer (updateWavesTimer w t) ts).disturbCount : ℚ) ≤ 4 * T
    by_cases hcond : 1/4 ≤ t - w.tBase
    · apply ih
      · intro u hu; exact hmem u (by simp [hu])
      · simp only [updateWavesTimer, if_pos hcond]
        rw [hb]; push_cast; ring
      · simp only [updateWavesTimer, if_pos hcond]
        rw [hb] at hcond
        push_cast
        linarith
    · apply ih
      · intro u hu; exact hmem u (by simp [hu])
      · simp only [updateWavesTimer, if_neg hcond]; exact hb
      · simp only [updateWavesTimer, if_neg hcond]; exact hc

/-- C7: every Disturb issued by the tick driver targets a row and column
in the closed interval from 4 to RowCount minus 5 (hence strictly interior,
at least 1 and at most RowCount minus 2), for every pair of random seeds;
and over any run of ticks whose total times are bounded by T at least 0,
the function-static cadence accumulator admits at most 4 times T Disturb
calls (one per quarter second of total time). -/
theorem disturb_interior_and_rate :
    (∀ seedI seedJ : Nat,
      (4 ≤ (disturbTarget seedI seedJ).1 ∧
        (disturbTarget seedI seedJ).1 ≤ mWaves.RowCount - 5 ∧
        1 ≤ (disturbTarget seedI seedJ).1 ∧
        (disturbTarget seedI seedJ).1 ≤ mWaves.RowCount - 2) ∧
      (4 ≤ (disturbTarget seedI seedJ).2 ∧
        (disturbTarget seedI seedJ).2 ≤ mWaves.ColumnCount - 5 ∧
        1 ≤ (disturbTarget seedI seedJ).2 ∧
        (disturbTarget seedI seedJ).2 ≤ mWaves.ColumnCount - 2)) ∧
    (∀ (times : List ℚ) (T : ℚ), 0 ≤ T → (∀ t ∈ times, t ≤ T) →
      ((runWavesTimer { tBase := 0, disturbCount := 0 } times).disturbCount : ℚ) ≤ 4 * T) := by
  constructor
  · intro sI sJ
    have e1 : (disturbTarget sI sJ).1 = 4 + (sI : Int) % 120 := rfl
    have e2 : (disturbTarget sI sJ).2 = 4 + (sJ : Int) % 120 := rfl
    have eR : mWaves.RowCount = 128 := rfl
    have eC : mWaves.ColumnCount = 128 := rfl
    have h1 : (0 : Int) ≤ (sI : Int) % 120 := Int.emod_nonneg _ (by norm_num)
    have h2 : (sI : Int) % 120 < 120 := Int.emod_lt_of_pos _ (by norm_num)
    have h3 : (0 : Int) ≤ (sJ : Int) % 120 := Int.emod_nonneg _ (by norm_num)
    have h4 : (sJ : Int) % 120 < 120 := Int.emod_lt_of_pos _ (by norm_num)
    rw [e1, e2, eR, eC]
    omega
  · intro times T hT hmem
    exact runWavesTimer_le T times { tBase := 0, disturbCount := 0 } hmem
      (by norm_num) (by push_cast; linarith)

/-- Witness for C7: a run with total times a quarter second and one second
bounded by one second issues at most four Disturb calls, and the target of
the zero seeds is in range. -/
theorem disturb_interior_and_rate_witness :
    ((0 : ℚ) ≤ 1) ∧
    ((runWavesTimer { tBase := 0, disturbCount := 0 } [1/4, 1]).disturbCount : ℚ) ≤ 4 * 1 ∧
    4 ≤ (disturbTarget 0 0).1 := by
  refine ⟨by norm_num, ?_, ?_⟩
  · exact disturb_interior_and_rate.2 [1/4, 1] 1 (by norm_num)
      (by intro t ht; fin_cases ht <;> norm_num)
  · exact ((disturb_interior_and_rate.1 0 0).1).1

/-- Helper: the flush loop on an empty item list. -/
theorem flushItems_nil (cb : Nat → ObjectConstants) : flushItems cb [] = (cb, []) := rfl

/-- Helper: the flush loop on a cons cell. -/
theorem flushItems_cons (cb : Nat → ObjectConstants) (e : RenderItemState)
    (es : List RenderItemState) :
    flushItems cb (e :: es)
      = ((flushItems (flushItem cb e).1 es).1,
         (flushItem cb e).2 :: (flushItems (flushItem cb e).1 es).2) := rfl

/-- Helper: the flush result for a dirty item. -/
theorem flushItem_pos (cb : Nat → ObjectConstants) (e : RenderItemState)
    (h : 0 < e.NumFramesDirty) :
    flushItem cb e
      = (Function.update cb e.ObjCBIndex (objectConstantsOf e),
         { e with NumFramesDirty := e.NumFramesDirty - 1 }) := by
  simp [flushItem, h]

/-- Helper: flushing preserves an item ObjCBIndex. -/
theorem flushItem_snd_ObjCBIndex (cb : Nat → ObjectConstants) (e : RenderItemState) :
    ((flushItem cb e).2).ObjCBIndex = e.ObjCBIndex := by
  by_cases h : e.NumFramesDirty > 0 <;> simp [flushItem, h]

/-- Helper: the buffer component of the flush loop over an append. -/
theorem flushItems_fst_append (l1 l2 : List RenderItemState) :
    ∀ cb, (flushItems cb (l1 ++ l2)).1 = (flushItems (flushItems cb l1).1 l2).1 := by
  induction l1 with
  | nil => intro cb; rfl
  | cons x xs ih =>
    intro cb
    rw [List.cons_append, flushItems_cons, flushItems_cons]
    exact ih (flushItem cb x).1

/-- Helper: the item-list component of the flush loop over an append. -/
theorem flushItems_snd_append (l1 l2 : List RenderItemState) :
    ∀ cb, (flushItems cb (l1 ++ l2)).2
      = (flushItems cb l1).2 ++ (flushItems (flushItems cb l1).1 l2).2 := by
  induction l1 with
  | nil => intro cb; rfl
  | cons x xs ih =>
    intro cb
    show (flushItem cb x).2 :: (flushItems (flushItem cb x).1 (xs ++ l2)).2
        = ((flushItem cb x).2 :: (flushItems (flushItem cb x).1 xs).2)
          ++ (flushItems (flushItems (flushItem cb x).1 xs).1 l2).2
    rw [List.cons_append]
    exact congrArg (List.cons (flushItem cb x).2) (ih (flushItem cb x).1)

/-- Helper: the flush loop leaves buffer entries alone at an index that no
item in the list carries. -/
theorem flushItems_fst_not_written (l : List RenderItemState) (n : Nat)
    (h : ∀ x ∈ l, x.ObjCBIndex ≠ n) :
    ∀ cb, (flushItems cb l).1 n = cb n := by
  induction l with
  | nil => intro cb; rfl
  | cons x xs ih =>
    intro cb
    have hx : x.ObjCBIndex ≠ n := h x (by simp)
    have hxs : ∀ y ∈ xs, y.ObjCBIndex ≠ n := fun y hy => h y (by simp [hy])
    rw [flushItems_cons]
    show (flushItems (flushItem cb x).1 xs).1 n = cb n
    rw [ih hxs]
    by_cases hd : x.NumFramesDirty > 0
    · simp [flushItem, hd, Function.update_noteq (Ne.symm hx)]
    · simp [flushItem, hd]

/-- Helper: the flush loop preserves the multiset of item indices in
order. -/
theorem flushItems_snd_map_index (l : List RenderItemState) :
    ∀ cb, ((flushItems cb l).2).map (fun x => x.ObjCBIndex)
      = l.map fun x => x.ObjCBIndex := by
  induction l with
  | nil => intro cb; rfl
  | cons x xs ih =>
    intro cb
    rw [flushItems_cons]
    simp only [List.map_cons]
    rw [flushItem_snd_ObjCBIndex, ih]

/-- Helper: non-occurrence of an index survives the flush loop. -/
theorem flushItems_snd_not_index (cb : Nat → ObjectConstants) (l : List RenderItemState)
    (n : Nat) (h : ∀ x ∈ l, x.ObjCBIndex ≠ n) :
    ∀ x ∈ (flushItems cb l).2, x.ObjCBIndex ≠ n := by
  intro x hx
  have hmem : x.ObjCBIndex ∈ ((flushItems cb l).2).map fun y => y.ObjCBIndex :=
    List.mem_map_of_mem _ hx
  rw [flushItems_snd_map_index] at hmem
  obtain ⟨y, hy, hxy⟩ := List.mem_map.mp hmem
  rw [← hxy]
  exact h y hy

/-- Helper: components of updateObjectCBs. -/
theorem updateObjectCBs_objectCB (s : SceneObjects) :
    (updateObjectCBs s).objectCB
      = Function.update s.objectCB s.currFrameResourceIndex
          (flushItems (s.objectCB s.currFrameResourceIndex) s.mAllRitems).1 := rfl

/-- Helper: item list after updateObjectCBs. -/
theorem updateObjectCBs_mAllRitems (s : SceneObjects) :
    (updateObjectCBs s).mAllRitems
      = (flushItems (s.objectCB s.currFrameResourceIndex) s.mAllRitems).2 := rfl

/-- Helper: cursor after an object tick. -/
theorem objectTick_cursor (s : SceneObjects) :
    (objectTick s).currFrameResourceIndex = nextFrameIndex s.currFrameResourceIndex := rfl

/-- Helper: membership in a positional list update comes from the original
list, directly or through the update function. -/
theorem mem_updateAt {α : Type} (l : List α) (k : Nat) (f : α → α) (x : α) :
    x ∈ updateAt l k f → x ∈ l ∨ ∃ y ∈ l, x = f y := by
  induction l generalizing k with
  | nil => intro h; exact absurd h (by simp [updateAt])
  | cons b bs ih =>
    cases k with
    | zero =>
      intro h
      rcases List.mem_cons.mp h with h | h
      · exact Or.inr ⟨b, by simp, h⟩
      · exact Or.inl (by simp [h])
    | succ j =>
      intro h
      rcases List.mem_cons.mp h with h | h
      · exact Or.inl (by simp [h])
      · rcases ih j h with h2 | ⟨y, hy, hxy⟩
        · exact Or.inl (by simp [h2])
        · exact Or.inr ⟨y, by simp [hy], hxy⟩

/-- Helper: a positional update at a position other than that of the
distinguished middle element keeps the middle element and the split
structure, only mapping side elements through the function. -/
theorem updateAt_append_ne {α : Type} (l1 : List α) (a : α) (l2 : List α) (k : Nat)
    (f : α → α) (hk : k ≠ l1.length) :
    ∃ l1B l2B, updateAt (l1 ++ a :: l2) k f = l1B ++ a :: l2B ∧
      l1B.length = l1.length ∧
      (∀ x ∈ l1B, x ∈ l1 ∨ ∃ y ∈ l1, x = f y) ∧
      (∀ x ∈ l2B, x ∈ l2 ∨ ∃ y ∈ l2, x = f y) := by
  induction l1 generalizing k with
  | nil =>
    cases k with
    | zero => exact absurd rfl hk
    | succ j =>
      refine ⟨[], updateAt l2 j f, rfl, rfl, by simp, ?_⟩
      intro x hx
      exact mem_updateAt l2 j f x hx
  | cons b bs ih =>
    cases k with
    | zero =>
      refine ⟨f b :: bs, l2, rfl, rfl, ?_, fun x hx => Or.inl hx⟩
      intro x hx
      rcases List.mem_cons.mp hx with h | h
      · exact Or.inr ⟨b, by simp, h⟩
      · exact Or.inl (by simp [h])
    | succ j =>
      have hj : j ≠ bs.length := fun h => hk (by rw [h]; rfl)
      obtain ⟨l1B, l2B, heq, hlen, hm1, hm2⟩ := ih j hj
      refine ⟨b :: l1B, l2B, ?_, by simp [hlen], ?_, hm2⟩
      · show b :: updateAt (bs ++ a :: l2) j f = (b :: l1B) ++ a :: l2B
        rw [heq]; rfl
      · intro x hx
        rcases List.mem_cons.mp hx with h | h
        · exact Or.inl (by simp [h])
        · rcases hm1 x h with h2 | ⟨y, hy, hxy⟩
          · exact Or.inl (by simp [h2])
          · exact Or.inr ⟨y, by simp [hy], hxy⟩

/-- Helper: one object tick on a scene whose item list splits around a
dirty item e whose ObjCBIndex no other item carries: the current slot
receives the constants of e at its index, other slots are untouched, and
the list splits the same way around e with its counter decremented. -/
theorem objectTick_split (s : SceneObjects) (l1 l2 : List RenderItemState)
    (e : RenderItemState)
    (hs : s.mAllRitems = l1 ++ e :: l2)
    (hd : 0 < e.NumFramesDirty)
    (h1 : ∀ x ∈ l1, x.ObjCBIndex ≠ e.ObjCBIndex)
    (h2 : ∀ x ∈ l2, x.ObjCBIndex ≠ e.ObjCBIndex) :
    (objectTick s).currFrameResourceIndex = nextFrameIndex s.currFrameResourceIndex ∧
    (objectTick s).objectCB (nextFrameIndex s.currFrameResourceIndex) e.ObjCBIndex
      = objectConstantsOf e ∧
    (∀ j, j ≠ nextFrameIndex s.currFrameResourceIndex →
      (objectTick s).objectCB j = s.objectCB j) ∧
    ∃ l1A l2A,
      (objectTick s).mAllRitems
        = l1A ++ { e with NumFramesDirty := e.NumFramesDirty - 1 } :: l2A ∧
      (∀ x ∈ l1A, x.ObjCBIndex ≠ e.ObjCBIndex) ∧
      (∀ x ∈ l2A, x.ObjCBIndex ≠ e.ObjCBIndex) := by
  have hcb : (objectTick s).objectCB
      = Function.update s.objectCB (nextFrameIndex s.currFrameResourceIndex)
          (flushItems (s.objectCB (nextFrameIndex s.currFrameResourceIndex)) s.mAllRitems).1 := rfl
  have hit : (objectTick s).mAllRitems
      = (flushItems (s.objectCB (nextFrameIndex s.currFrameResourceIndex)) s.mAllRitems).2 := rfl
  refine ⟨rfl, ?_, ?_, ?_⟩
  · rw [hcb, Function.update_same, hs, flushItems_fst_append, flushItems_cons]
    show (flushItems (flushItem _ e).1 l2).1 e.ObjCBIndex = objectConstantsOf e
    rw [flushItems_fst_not_written l2 e.ObjCBIndex h2, flushItem_pos _ e hd]
    exact Function.update_same _ _ _
  · intro j hj
    rw [hcb, Function.update_noteq hj]
  · rw [hit, hs, flushItems_snd_append, flushItems_cons]
    refine ⟨(flushItems (s.objectCB (nextFrameIndex s.currFrameResourceIndex)) l1).2,
      (flushItems (flushItem (flushItems
        (s.objectCB (nextFrameIndex s.currFrameResourceIndex)) l1).1 e).1 l2).2, ?_, ?_, ?_⟩
    · rw [flushItem_pos _ e hd]
    · exact flushItems_snd_not_index _ l1 _ h1
    · exact flushItems_snd_not_index _ l2 _ h2

/-- Helper: the material flush loop on a cons cell. -/
theorem flushMats_cons (cb : Nat → MaterialConstants) (e : MaterialEntry)
    (es : List MaterialEntry) :
    flushMats cb (e :: es)
      = ((flushMats (flushMat cb e).1 es).1,
         (flushMat cb e).2 :: (flushMats (flushMat cb e).1 es).2) := rfl

/-- Helper: the flush result for a dirty material. -/
theorem flushMat_pos (cb : Nat → MaterialConstants) (e : MaterialEntry)
    (h : 0 < e.mat.NumFramesDirty) :
    flushMat cb e
      = (Function.update cb e.MatCBIndex (materialConstantsOf e.mat),
         { e with mat := { e.mat with NumFramesDirty := e.mat.NumFramesDirty - 1 } }) := by
  simp [flushMat, h]

/-- Helper: flushing preserves a material MatCBIndex. -/
theorem flushMat_snd_MatCBIndex (cb : Nat → MaterialConstants) (e : MaterialEntry) :
    ((flushMat cb e).2).MatCBIndex = e.MatCBIndex := by
  by_cases h : e.mat.NumFramesDirty > 0 <;> simp [flushMat, h]

/-- Helper: the buffer component of the material flush loop over an
append. -/
theorem flushMats_fst_append (l1 l2 : List MaterialEntry) :
    ∀ cb, (flushMats cb (l1 ++ l2)).1 = (flushMats (flushMats cb l1).1 l2).1 := by
  induction l1 with
  | nil => intro cb; rfl
  | cons x xs ih =>
    intro cb
    rw [List.cons_append, flushMats_cons, flushMats_cons]
    exact ih (flushMat cb x).1

/-- Helper: the material-list component of the flush loop over an
append. -/
theorem flushMats_snd_append (l1 l2 : List MaterialEntry) :
    ∀ cb, (flushMats cb (l1 ++ l2)).2
      = (flushMats cb l1).2 ++ (flushMats (flushMats cb l1).1 l2).2 := by
  induction l1 with
  | nil => intro cb; rfl
  | cons x xs ih =>
    intro cb
    show (flushMat cb x).2 :: (flushMats (flushMat cb x).1 (xs ++ l2)).2
        = ((flushMat cb x).2 :: (flushMats (flushMat cb x).1 xs).2)
          ++ (flushMats (flushMats (flushMat cb x).1 xs).1 l2).2
    rw [List.cons_append]
    exact congrArg (List.cons (flushMat cb x).2) (ih (flushMat cb x).1)

/-- Helper: the material flush loop leaves buffer entries alone at an
index that no material in the list carries. -/
theorem flushMats_fst_not_written (l : List MaterialEntry) (n : Nat)
    (h : ∀ x ∈ l, x.MatCBIndex ≠ n) :
    ∀ cb, (flushMats cb l).1 n = cb n := by
  induction l with
  | nil => intro cb; rfl
  | cons x xs ih =>
    intro cb
    have hx : x.MatCBIndex ≠ n := h x (by simp)
    have hxs : ∀ y ∈ xs, y.MatCBIndex ≠ n := fun y hy => h y (by simp [hy])
    rw [flushMats_cons]
    show (flushMats (flushMat cb x).1 xs).1 n = cb n
    rw [ih hxs]
    by_cases hd : x.mat.NumFramesDirty > 0
    · simp [flushMat, hd, Function.update_noteq (Ne.symm hx)]
    · simp [flushMat, hd]

/-- Helper: the material flush loop preserves the list of indices in
order. -/
theorem flushMats_snd_map_index (l : List MaterialEntry) :
    ∀ cb, ((flushMats cb l).2).map (fun x => x.MatCBIndex)
      = l.map fun x => x.MatCBIndex := by
  induction l with
  | nil => intro cb; rfl
  | cons x xs ih =>
    intro cb
    rw [flushMats_cons]
    simp only [List.map_cons]
    rw [flushMat_snd_MatCBIndex, ih]

/-- Helper: non-occurrence of an index survives the material flush loop. -/
theorem flushMats_snd_not_index (cb : Nat → MaterialConstants) (l : List MaterialEntry)
    (n : Nat) (h : ∀ x ∈ l, x.MatCBIndex ≠ n) :
    ∀ x ∈ (flushMats cb l).2, x.MatCBIndex ≠ n := by
  intro x hx
  have hmem : x.MatCBIndex ∈ ((flushMats cb l).2).map fun y => y.MatCBIndex :=
    List.mem_map_of_mem _ hx
  rw [flushMats_snd_map_index] at hmem
  obtain ⟨y, hy, hxy⟩ := List.mem_map.mp hmem
  rw [← hxy]
  exact h y hy

/-- Helper: the material flush loop preserves list length. -/
theorem flushMats_snd_length (cb : Nat → MaterialConstants) (l : List MaterialEntry) :
    ((flushMats cb l).2).length = l.length := by
  have h := congrArg List.length (flushMats_snd_map_index l cb)
  simpa using h

/-- Helper: one material tick on a scene whose material list splits around
a dirty entry e whose MatCBIndex no other entry carries, with the animated
entry at a position other than that of e: the current slot receives the
constants of e at its index, other slots are untouched, and the list
splits the same way around e with its counter decremented and the prefix
length preserved. -/
theorem materialTick_split (s : SceneMaterials) (m1 m2 : List MaterialEntry)
    (e : MaterialEntry) (wp : Nat) (dt : ℚ)
    (hs : s.mMaterials = m1 ++ e :: m2)
    (hwp : wp ≠ m1.length)
    (hd : 0 < e.mat.NumFramesDirty)
    (h1 : ∀ x ∈ m1, x.MatCBIndex ≠ e.MatCBIndex)
    (h2 : ∀ x ∈ m2, x.MatCBIndex ≠ e.MatCBIndex) :
    (materialTick s wp dt).currFrameResourceIndex = nextFrameIndex s.currFrameResourceIndex ∧
    (materialTick s wp dt).materialCB (nextFrameIndex s.currFrameResourceIndex) e.MatCBIndex
      = materialConstantsOf e.mat ∧
    (∀ j, j ≠ nextFrameIndex s.currFrameResourceIndex →
      (materialTick s wp dt).materialCB j = s.materialCB j) ∧
    ∃ m1A m2A,
      (materialTick s wp dt).mMaterials
        = m1A ++ { e with mat := { e.mat with NumFramesDirty := e.mat.NumFramesDirty - 1 } } :: m2A ∧
      m1A.length = m1.length ∧
      (∀ x ∈ m1A, x.MatCBIndex ≠ e.MatCBIndex) ∧
      (∀ x ∈ m2A, x.MatCBIndex ≠ e.MatCBIndex) := by
  obtain ⟨m1B, m2B, hup, hlenB, hmem1, hmem2⟩ :=
    updateAt_append_ne m1 e m2 wp
      (fun x => { x with mat := animateMaterialsWater x.mat dt }) hwp
  have h1B : ∀ x ∈ m1B, x.MatCBIndex ≠ e.MatCBIndex := by
    intro x hx
    rcases hmem1 x hx with h | ⟨y, hy, hxy⟩
    · exact h1 x h
    · rw [hxy]; exact h1 y hy
  have h2B : ∀ x ∈ m2B, x.MatCBIndex ≠ e.MatCBIndex := by
    intro x hx
    rcases hmem2 x hx with h | ⟨y, hy, hxy⟩
    · exact h2 x h
    · rw [hxy]; exact h2 y hy
  have hmats : (materialTick s wp dt).mMaterials
      = (flushMats (s.materialCB (nextFrameIndex s.currFrameResourceIndex))
          (updateAt s.mMaterials wp fun x => { x with mat := animateMaterialsWater x.mat dt })).2 := rfl
  have hcb : (materialTick s wp dt).materialCB
      = Function.update s.materialCB (nextFrameIndex s.currFrameResourceIndex)
          (flushMats (s.materialCB (nextFrameIndex s.currFrameResourceIndex))
            (updateAt s.mMaterials wp fun x => { x with mat := animateMaterialsWater x.mat dt })).1 := rfl
  refine ⟨rfl, ?_, ?_, ?_⟩
  · rw [hcb, Function.update_same, hs, hup, flushMats_fst_append, flushMats_cons]
    show (flushMats (flushMat _ e).1 m2B).1 e.MatCBIndex = materialConstantsOf e.mat
    rw [flushMats_fst_not_written m2B e.MatCBIndex h2B, flushMat_pos _ e hd]
    exact Function.update_same _ _ _
  · intro j hj
    rw [hcb, Function.update_noteq hj]
  · rw [hmats, hs, hup, flushMats_snd_append, flushMats_cons]
    refine ⟨(flushMats (s.materialCB (nextFrameIndex s.currFrameResourceIndex)) m1B).2,
      (flushMats (flushMat (flushMats
        (s.materialCB (nextFrameIndex s.currFrameResourceIndex)) m1B).1 e).1 m2B).2,
      ?_, ?_, ?_, ?_⟩
    · rw [flushMat_pos _ e hd]
    · rw [flushMats_snd_length]; exact hlenB
    · exact flushMats_snd_not_index _ m1B _ h1B
    · exact flushMats_snd_not_index _ m2B _ h2B

/-- C2 amended: for ring size gNumFrameResources = 3, after exactly 3
ticks following a single mutation of a render item or of a material (with
no intervening mutation of that entity), every frame slot constant-buffer
copy at that entity index equals the mutated value, provided no other
entity of the same collection carries the same constant-buffer index; for
materials the per-tick water animation may target any other position. -/
theorem dirty_propagation_three_ticks :
    (∀ (cursor : Fin gNumFrameResources)
        (cb : Fin gNumFrameResources → Nat → ObjectConstants)
        (l1 l2 : List RenderItemState) (e : RenderItemState),
      e.NumFramesDirty = (gNumFrameResources : Int) →
      (∀ x ∈ l1, x.ObjCBIndex ≠ e.ObjCBIndex) →
      (∀ x ∈ l2, x.ObjCBIndex ≠ e.ObjCBIndex) →
      ∀ i : Fin gNumFrameResources,
        (objectTick (objectTick (objectTick
            { mAllRitems := l1 ++ e :: l2, currFrameResourceIndex := cursor,
              objectCB := cb }))).objectCB i e.ObjCBIndex
          = objectConstantsOf e) ∧
    (∀ (cursor : Fin gNumFrameResources)
        (cb : Fin gNumFrameResources → Nat → MaterialConstants)
        (m1 m2 : List MaterialEntry) (e : MaterialEntry) (wp : Nat) (dt1 dt2 dt3 : ℚ),
      e.mat.NumFramesDirty = (gNumFrameResources : Int) →
      wp ≠ m1.length →
      (∀ x ∈ m1, x.MatCBIndex ≠ e.MatCBIndex) →
      (∀ x ∈ m2, x.MatCBIndex ≠ e.MatCBIndex) →
      ∀ i : Fin gNumFrameResources,
        (materialTick (materialTick (materialTick
            { mMaterials := m1 ++ e :: m2, currFrameResourceIndex := cursor,
              materialCB := cb } wp dt1) wp dt2) wp dt3).materialCB i e.MatCBIndex
          = materialConstantsOf e.mat) := by
  have hcov : ∀ c i : Fin gNumFrameResources,
      i = nextFrameIndex c ∨ i = nextFrameIndex (nextFrameIndex c) ∨
        i = nextFrameIndex (nextFrameIndex (nextFrameIndex c)) := by decide
  have hne12 : ∀ c : Fin gNumFrameResources,
      nextFrameIndex c ≠ nextFrameIndex (nextFrameIndex c) := by decide
  have hne13 : ∀ c : Fin gNumFrameResources,
      nextFrameIndex c ≠ nextFrameIndex (nextFrameIndex (nextFrameIndex c)) := by decide
  have hne23 : ∀ c : Fin gNumFrameResources,
      nextFrameIndex (nextFrameIndex c)
        ≠ nextFrameIndex (nextFrameIndex (nextFrameIndex c)) := by decide
  constructor
  · intro cursor cb l1 l2 e he h1 h2 i
    have he3 : e.NumFramesDirty = 3 := he.trans rfl
    obtain ⟨hc1, hw1, ho1, l1A, l2A, hsA, h1A, h2A⟩ :=
      objectTick_split ⟨l1 ++ e :: l2, cursor, cb⟩ l1 l2 e rfl (by omega) h1 h2
    obtain ⟨hc2, hw2, ho2, l1B, l2B, hsB, h1B, h2B⟩ :=
      objectTick_split _ l1A l2A { e with NumFramesDirty := e.NumFramesDirty - 1 }
        hsA (by show 0 < e.NumFramesDirty - 1; omega) h1A h2A
    obtain ⟨hc3, hw3, ho3, l1C, l2C, hsC, h1C, h2C⟩ :=
      objectTick_split _ l1B l2B
        { e with NumFramesDirty := e.NumFramesDirty - 1 - 1 }
        hsB (by show 0 < e.NumFramesDirty - 1 - 1; omega) h1B h2B
    have hs2c : (objectTick (objectTick
        ({ mAllRitems := l1 ++ e :: l2, currFrameResourceIndex := cursor,
           objectCB := cb } : SceneObjects))).currFrameResourceIndex
        = nextFrameIndex (nextFrameIndex cursor) := by
      rw [hc2, hc1]
    rcases hcov cursor i with hi | hi | hi
    · rw [hi, ho3 _ (by rw [hs2c]; exact hne13 cursor),
        ho2 _ (by rw [hc1]; exact hne12 cursor)]
      exact hw1
    · rw [hi, ho3 _ (by rw [hs2c]; exact hne23 cursor)]
      rw [hc1] at hw2
      exact hw2
    · rw [hi]
      rw [hs2c] at hw3
      exact hw3
  · intro cursor cb m1 m2 e wp dt1 dt2 dt3 he hwp h1 h2 i
    have he3 : e.mat.NumFramesDirty = 3 := he.trans rfl
    obtain ⟨hc1, hw1, ho1, m1A, m2A, hsA, hlenA, h1A, h2A⟩ :=
      materialTick_split ⟨m1 ++ e :: m2, cursor, cb⟩ m1 m2 e wp dt1 rfl hwp
        (by omega) h1 h2
    obtain ⟨hc2, hw2, ho2, m1B, m2B, hsB, hlenB, h1B, h2B⟩ :=
      materialTick_split _ m1A m2A
        { e with mat := { e.mat with NumFramesDirty := e.mat.NumFramesDirty - 1 } }
        wp dt2 hsA (by rw [hlenA]; exact hwp)
        (by show 0 < e.mat.NumFramesDirty - 1; omega) h1A h2A
    obtain ⟨hc3, hw3, ho3, m1C, m2C, hsC, hlenC, h1C, h2C⟩ :=
      materialTick_split _ m1B m2B
        { e with mat := { e.mat with NumFramesDirty := e.mat.NumFramesDirty - 1 - 1 } }
        wp dt3 hsB (by rw [hlenB, hlenA]; exact hwp)
        (by show 0 < e.mat.NumFramesDirty - 1 - 1; omega) h1B h2B
    have hs2c : (materialTick (materialTick
        ({ mMaterials := m1 ++ e :: m2, currFrameResourceIndex := cursor,
           materialCB := cb } : SceneMaterials) wp dt1) wp dt2).currFrameResourceIndex
        = nextFrameIndex (nextFrameIndex cursor) := by
      rw [hc2, hc1]
    rcases hcov cursor i with hi | hi | hi
    · rw [hi, ho3 _ (by rw [hs2c]; exact hne13 cursor),
        ho2 _ (by rw [hc1]; exact hne12 cursor)]
      exact hw1
    · rw [hi, ho3 _ (by rw [hs2c]; exact hne23 cursor)]
      rw [hc1] at hw2
      exact hw2
    · rw [hi]
      rw [hs2c] at hw3
      exact hw3

/-- C2 counterexample: in the program two render items share ObjCBIndex 3
(treeSprites hard-coded, the third wall from the running counter); with
treeSprites just mutated and the wall still dirty from creation, three
ticks leave the slot copies at index 3 holding the wall transforms, not
the treeSprites value, because the wall is flushed later in mAllRitems
order; so the claim as stated fails on the program scene. -/
theorem dirty_propagation_counterexample :
    treeSpritesItemEx.NumFramesDirty = (gNumFrameResources : Int) ∧
    backWallItemEx.ObjCBIndex = treeSpritesItemEx.ObjCBIndex ∧
    ¬ (∀ i : Fin gNumFrameResources,
        (objectTick (objectTick (objectTick sharedIndexScene))).objectCB i
          treeSpritesItemEx.ObjCBIndex = objectConstantsOf treeSpritesItemEx) := by
  refine ⟨rfl, rfl, ?_⟩
  intro h
  have h0 := congrArg (fun oc => oc.World 0 0) (h 0)
  have e1 : ((objectTick (objectTick (objectTick sharedIndexScene))).objectCB 0
      treeSpritesItemEx.ObjCBIndex).World 0 0 = 2 := by decide
  have e2 : (objectConstantsOf treeSpritesItemEx).World 0 0 = 1 := by decide
  have : (2 : ℚ) = 1 := e1.symm.trans (h0.trans e2)
  norm_num at this

/-- Witness for C2 amended at concrete one-entity scenes with unique
indices. -/
theorem dirty_propagation_three_ticks_witness :
    treeSpritesItemEx.NumFramesDirty = (gNumFrameResources : Int) ∧
    (objectTick (objectTick (objectTick singleItemScene))).objectCB 0
      treeSpritesItemEx.ObjCBIndex = objectConstantsOf treeSpritesItemEx ∧
    matEntryEx.mat.NumFramesDirty = (gNumFrameResources : Int) ∧
    (materialTick (materialTick (materialTick singleMatScene 5 0) 5 0) 5 0).materialCB 0
      matEntryEx.MatCBIndex = materialConstantsOf matEntryEx.mat := by
  refine ⟨rfl, ?_, rfl, ?_⟩
  · exact dirty_propagation_three_ticks.1 0 (fun _ _ => zeroObjectConstants) [] []
      treeSpritesItemEx rfl (by simp) (by simp) 0
  · exact dirty_propagation_three_ticks.2 0 (fun _ _ => zeroMaterialConstants) [] []
      matEntryEx 5 0 0 0 rfl (by norm_num) (by simp) (by simp) 0

/-- Helper: the flush result for a clean item. -/
theorem flushItem_neg (cb : Nat → ObjectConstants) (e : RenderItemState)
    (h : ¬ 0 < e.NumFramesDirty) : flushItem cb e = (cb, e) := by
  simp [flushItem, h]

/-- Helper: the flush result for a clean material. -/
theorem flushMat_neg (cb : Nat → MaterialConstants) (e : MaterialEntry)
    (h : ¬ 0 < e.mat.NumFramesDirty) : flushMat cb e = (cb, e) := by
  simp [flushMat, h]

/-- Helper: the item flush loop keeps every dirty counter within 0 and
gNumFrameResources when it starts there (the decrement is guarded by
strict positivity). -/
theorem flushItems_dirty_bounds (l : List RenderItemState) :
    ∀ cb, (∀ x ∈ l, 0 ≤ x.NumFramesDirty ∧ x.NumFramesDirty ≤ (gNumFrameResources : Int)) →
      ∀ x ∈ (flushItems cb l).2,
        0 ≤ x.NumFramesDirty ∧ x.NumFramesDirty ≤ (gNumFrameResources : Int) := by
  induction l with
  | nil =>
    intro cb _ x hx
    rw [flushItems_nil] at hx
    exact absurd hx (List.not_mem_nil x)
  | cons b bs ih =>
    intro cb h x hx
    rw [flushItems_cons] at hx
    rcases List.mem_cons.mp hx with h1 | h1
    · have hb := h b (by simp)
      by_cases hd : 0 < b.NumFramesDirty
      · rw [flushItem_pos _ _ hd] at h1
        rw [h1]
        refine ⟨?_, ?_⟩
        · show 0 ≤ b.NumFramesDirty - 1
          omega
        · show b.NumFramesDirty - 1 ≤ (gNumFrameResources : Int)
          omega
      · rw [flushItem_neg _ _ hd] at h1
        rw [h1]
        exact hb
    · exact ih (flushItem cb b).1 (fun y hy => h y (List.mem_cons_of_mem b hy)) x h1

/-- Helper: the material flush loop keeps every dirty counter within 0 and
gNumFrameResources when it starts there. -/
theorem flushMats_dirty_bounds (l : List MaterialEntry) :
    ∀ cb, (∀ x ∈ l, 0 ≤ x.mat.NumFramesDirty ∧ x.mat.NumFramesDirty ≤ (gNumFrameResources : Int)) →
      ∀ x ∈ (flushMats cb l).2,
        0 ≤ x.mat.NumFramesDirty ∧ x.mat.NumFramesDirty ≤ (gNumFrameResources : Int) := by
  induction l with
  | nil =>
    intro cb _ x hx
    exact absurd hx (List.not_mem_nil x)
  | cons b bs ih =>
    intro cb h x hx
    rw [flushMats_cons] at hx
    rcases List.mem_cons.mp hx with h1 | h1
    · have hb := h b (by simp)
      by_cases hd : 0 < b.mat.NumFramesDirty
      · rw [flushMat_pos _ _ hd] at h1
        rw [h1]
        refine ⟨?_, ?_⟩
        · show 0 ≤ b.mat.NumFramesDirty - 1
          omega
        · show b.mat.NumFramesDirty - 1 ≤ (gNumFrameResources : Int)
          omega
      · rw [flushMat_neg _ _ hd] at h1
        rw [h1]
        exact hb
    · exact ih (flushMat cb b).1 (fun y hy => h y (List.mem_cons_of_mem b hy)) x h1

/-- Helper: item list after an object tick. -/
theorem objectTick_mAllRitems (s : SceneObjects) :
    (objectTick s).mAllRitems
      = (flushItems (s.objectCB (nextFrameIndex s.currFrameResourceIndex)) s.mAllRitems).2 := rfl

/-- Helper: material list after a material tick. -/
theorem materialTick_mMaterials (s : SceneMaterials) (wp : Nat) (dt : ℚ) :
    (materialTick s wp dt).mMaterials
      = (flushMats (s.materialCB (nextFrameIndex s.currFrameResourceIndex))
          (updateAt s.mMaterials wp fun x => { x with mat := animateMaterialsWater x.mat dt })).2 := rfl

/-- C10: for every render item and every material, across any interleaving
of per-tick flushes (including the water animation) and external
mutations, the frames-dirty counter stays within 0 and gNumFrameResources:
it starts at gNumFrameResources at creation, each mutation and each
animation resets it to gNumFrameResources, and each flush decrements it
only when strictly positive. -/
theorem numFramesDirty_in_range :
    (∀ (ops : List ItemOp) (s : SceneObjects),
      (∀ x ∈ s.mAllRitems,
        0 ≤ x.NumFramesDirty ∧ x.NumFramesDirty ≤ (gNumFrameResources : Int)) →
      ∀ x ∈ (itemRun s ops).mAllRitems,
        0 ≤ x.NumFramesDirty ∧ x.NumFramesDirty ≤ (gNumFrameResources : Int)) ∧
    (∀ (ops : List MatOp) (s : SceneMaterials),
      (∀ x ∈ s.mMaterials,
        0 ≤ x.mat.NumFramesDirty ∧ x.mat.NumFramesDirty ≤ (gNumFrameResources : Int)) →
      ∀ x ∈ (matRun s ops).mMaterials,
        0 ≤ x.mat.NumFramesDirty ∧ x.mat.NumFramesDirty ≤ (gNumFrameResources : Int)) := by
  constructor
  · intro ops
    induction ops with
    | nil => intro s h; exact h
    | cons op ops ih =>
      intro s h
      apply ih
      cases op with
      | tick =>
        intro x hx
        simp only [itemStep] at hx
        rw [objectTick_mAllRitems] at hx
        exact flushItems_dirty_bounds s.mAllRitems _ h x hx
      | mutate k w t =>
        intro x hx
        simp only [itemStep] at hx
        rcases mem_updateAt _ _ _ x hx with h1 | ⟨y, hy, hxy⟩
        · exact h x h1
        · rw [hxy]
          refine ⟨?_, ?_⟩
          · show (0 : Int) ≤ (gNumFrameResources : Int)
            norm_num
          · show (gNumFrameResources : Int) ≤ (gNumFrameResources : Int)
            exact le_refl _
  · intro ops
    induction ops with
    | nil => intro s h; exact h
    | cons op ops ih =>
      intro s h
      apply ih
      cases op with
      | tick wp dt =>
        intro x hx
        simp only [matStep] at hx
        rw [materialTick_mMaterials] at hx
        refine flushMats_dirty_bounds _ _ ?_ x hx
        intro y hy
        rcases mem_updateAt _ _ _ y hy with h1 | ⟨z, hz, hyz⟩
        · exact h y h1
        · rw [hyz]
          refine ⟨?_, ?_⟩
          · show (0 : Int) ≤ (animateMaterialsWater z.mat dt).NumFramesDirty
            rw [show (animateMaterialsWater z.mat dt).NumFramesDirty
              = (gNumFrameResources : Int) from rfl]
            norm_num
          · show (animateMaterialsWater z.mat dt).NumFramesDirty ≤ (gNumFrameResources : Int)
            rw [show (animateMaterialsWater z.mat dt).NumFramesDirty
              = (gNumFrameResources : Int) from rfl]
      | mutate k d f r mt =>
        intro x hx
        simp only [matStep] at hx
        rcases mem_updateAt _ _ _ x hx with h1 | ⟨y, hy, hxy⟩
        · exact h x h1
        · rw [hxy]
          refine ⟨?_, ?_⟩
          · show (0 : Int) ≤ (gNumFrameResources : Int)
            norm_num
          · show (gNumFrameResources : Int) ≤ (gNumFrameResources : Int)
            exact le_refl _

/-- Witness for C10 at concrete one-entity scenes and single-step runs. -/
theorem numFramesDirty_in_range_witness :
    (∀ x ∈ singleItemScene.mAllRitems,
      0 ≤ x.NumFramesDirty ∧ x.NumFramesDirty ≤ (gNumFrameResources : Int)) ∧
    (∀ x ∈ (itemRun singleItemScene [ItemOp.tick]).mAllRitems,
      0 ≤ x.NumFramesDirty ∧ x.NumFramesDirty ≤ (gNumFrameResources : Int)) ∧
    (∀ x ∈ singleMatScene.mMaterials,
      0 ≤ x.mat.NumFramesDirty ∧ x.mat.NumFramesDirty ≤ (gNumFrameResources : Int)) ∧
    (∀ x ∈ (matRun singleMatScene [MatOp.tick 0 0]).mMaterials,
      0 ≤ x.mat.NumFramesDirty ∧ x.mat.NumFramesDirty ≤ (gNumFrameResources : Int)) :=
  ⟨by decide,
   numFramesDirty_in_range.1 [ItemOp.tick] singleItemScene (by decide),
   by decide,
   numFramesDirty_in_range.2 [MatOp.tick 0 0] singleMatScene (by decide)⟩
